import Mathlib

/-!
# Shallow embedding of `prow/pjutil/filter.go`

This file embeds the presubmit filter/decision engine of the repository
(package `pjutil`, file `prow/pjutil/filter.go`) as executable Lean
definitions and proves properties of them.

Modelling conventions:
* Go `sets.String` is membership-only; it is modelled as a `List String`
  with `contains` for membership and an idempotent `insertStr`.
* `config.Presubmit` is an external descriptor; the capabilities the core
  consumes (`TriggerMatches`, `NeedsExplicitTrigger`, `ShouldRun`) are
  fields of the embedded structure, since their implementations live
  outside this repository slice.
* `config.ChangedFilesProvider` (`func() ([]string, error)`) becomes
  `Unit → Except String (List String)`.
* Fallible Go functions returning `(T, error)` become `Except String T`.
* The regex constants `TestAllRe`, `RetestRe`, `RetestRequiredRe` and
  `OkToTestRe` are all of the form `(?m)^...` anchored at a line, so a
  multiline match is modelled as "some line of the body matches", with
  the per-line languages computed directly from the patterns.
* The logger is ignored (pure logging); the diagnostic counters that
  `FilterPresubmits` logs are exposed by the scanning core `filterScan`.
* The context getter passed to `PresubmitFilter` may be invoked several
  times; it is modelled as a function of the invocation index, and
  `presubmitFilterInstr` additionally returns how many invocations the
  builder performed.
-/

namespace Pjutil

/-- The character class of Go regexp `\s`: `[\t\n\f\r ]`. -/
def goSpace (c : Char) : Bool :=
  c = ' ' || c = '\t' || c = '\n' || c = '\x0c' || c = '\r'

/-- `dropToken toks cs` returns `some rest` when `cs = toks ++ rest`,
anchoring a literal token at the start of a line. -/
def dropToken : List Char → List Char → Option (List Char)
  | [], cs => some cs
  | _ :: _, [] => none
  | t :: ts, c :: cs => if c = t then dropToken ts cs else none

/-- Split a character list at each newline; the pieces are the lines at
which a `(?m)^` anchor can match, ending where `(?m)$` can match. -/
def splitNl : List Char → List (List Char)
  | [] => [[]]
  | c :: cs =>
    if c = '\n' then [] :: splitNl cs
    else
      match splitNl cs with
      | [] => [[c]]
      | l :: ls => (c :: l) :: ls

/-- One line of the language of `RetestRe`: `^/retest\s*$`. -/
def retestLine (l : List Char) : Bool :=
  match dropToken "/retest".data l with
  | some rest => rest.all goSpace
  | none => false

/-- One line of the language of `RetestRequiredRe`: `^/retest-required\s*$`. -/
def retestRequiredLine (l : List Char) : Bool :=
  match dropToken "/retest-required".data l with
  | some rest => rest.all goSpace
  | none => false

/-- One line of the language of `OkToTestRe`: `^/ok-to-test\s*$`. -/
def okToTestLine (l : List Char) : Bool :=
  match dropToken "/ok-to-test".data l with
  | some rest => rest.all goSpace
  | none => false

/-- One line of the language of `TestAllRe`: `^/test all,?($|\s.*)`:
after the literal, either the line ends, or an optional comma is followed
by the line end or a whitespace character and arbitrary text. -/
def testAllLine (l : List Char) : Bool :=
  match dropToken "/test all".data l with
  | none => false
  | some [] => true
  | some (c :: rest) =>
    if c = ',' then
      match rest with
      | [] => true
      | c2 :: _ => goSpace c2
    else goSpace c

/-- `RetestRe.MatchString body`. -/
def matchesRetest (body : String) : Bool :=
  (splitNl body.data).any retestLine

/-- `RetestRequiredRe.MatchString body`. -/
def matchesRetestRequired (body : String) : Bool :=
  (splitNl body.data).any retestRequiredLine

/-- `OkToTestRe.MatchString body`. -/
def matchesOkToTest (body : String) : Bool :=
  (splitNl body.data).any okToTestLine

/-- `TestAllRe.MatchString body`. -/
def matchesTestAll (body : String) : Bool :=
  (splitNl body.data).any testAllLine

/-- `config.ChangedFilesProvider`: `func() ([]string, error)`. -/
abbrev ChangedFilesProvider : Type := Unit → Except String (List String)

/-- The slice of `config.Presubmit` this core reads, with the external
capabilities (`TriggerMatches`, `NeedsExplicitTrigger`, `ShouldRun`) as
function-valued fields. -/
structure Presubmit where
  name : String
  context : String
  rerunCommand : String
  optional : Bool
  needsExplicitTrigger : Bool
  triggerMatches : String → Bool
  shouldRun : String → ChangedFilesProvider → Bool → Bool → Except String Bool

/-- `type Filter func(p config.Presubmit) (shouldRun, forcedToRun, defaultBehavior bool)`. -/
abbrev Filter : Type := Presubmit → Bool × Bool × Bool

/-- `CommandFilter` builds a filter for `/test foo`:
`return p.TriggerMatches(body), p.TriggerMatches(body), true`. -/
def CommandFilter (body : String) : Filter :=
  fun p => (p.triggerMatches body, p.triggerMatches body, true)

/-- `TestAllFilter`: `return !p.NeedsExplicitTrigger(), false, false`. -/
def TestAllFilter : Filter :=
  fun p => (!p.needsExplicitTrigger, false, false)

/-- The loop body of `AggregateFilter`: evaluate the child filters in
order and return the first match; `(false, false, false)` if none. -/
def aggregateLoop : List Filter → Presubmit → Bool × Bool × Bool
  | [], _ => (false, false, false)
  | f :: fs, p => if (f p).1 then f p else aggregateLoop fs p

/-- `AggregateFilter` builds a filter that evaluates the child filters in
order and returns the first match. -/
def AggregateFilter (filters : List Filter) : Filter :=
  fun presubmit => aggregateLoop filters presubmit

/-- `RetestFilter` builds a filter for `/retest`:
`failed := failedContexts.Has(p.Context)`;
`return failed || (!p.NeedsExplicitTrigger() && !allContexts.Has(p.Context)), false, failed`. -/
def RetestFilter (failedContexts allContexts : List String) : Filter :=
  fun p =>
    let failed := failedContexts.contains p.context
    (failed || (!p.needsExplicitTrigger && !allContexts.contains p.context), false, failed)

/-- `RetestRequiredFilter`: rejects `Optional` presubmits, otherwise
delegates to `RetestFilter`. -/
def RetestRequiredFilter (failedContext allContexts : List String) : Filter :=
  fun ps =>
    if ps.optional then (false, false, false)
    else RetestFilter failedContext allContexts ps

/-- The loop of `FilterPresubmits`, returning
`(toTrigger, namesToTrigger, noMatch, shouldnotRun)` or the first
oracle error wrapped as `name + ": should run: " + err`. -/
def filterScan (filter : Filter) (changes : ChangedFilesProvider) (branch : String) :
    List Presubmit → Except String (List Presubmit × List String × Nat × Nat)
  | [] => Except.ok ([], [], 0, 0)
  | p :: rest =>
    if (filter p).1 then
      match p.shouldRun branch changes (filter p).2.1 (filter p).2.2 with
      | Except.error e => Except.error (p.name ++ ": should run: " ++ e)
      | Except.ok true =>
        match filterScan filter changes branch rest with
        | Except.error e => Except.error e
        | Except.ok (ts, ns, nm, snr) => Except.ok (p :: ts, p.name :: ns, nm, snr)
      | Except.ok false =>
        match filterScan filter changes branch rest with
        | Except.error e => Except.error e
        | Except.ok (ts, ns, nm, snr) => Except.ok (ts, ns, nm, snr + 1)
    else
      match filterScan filter changes branch rest with
      | Except.error e => Except.error e
      | Except.ok (ts, ns, nm, snr) => Except.ok (ts, ns, nm + 1, snr)

/-- `FilterPresubmits` determines which presubmits should run by
evaluating the user-provided filter; it returns the `toTrigger` list. -/
def FilterPresubmits (filter : Filter) (changes : ChangedFilesProvider) (branch : String)
    (presubmits : List Presubmit) : Except String (List Presubmit) :=
  match filterScan filter changes branch presubmits with
  | Except.error e => Except.error e
  | Except.ok (ts, _, _, _) => Except.ok ts

/-- A presubmit is triggered when the filter matches it and the
eligibility oracle, consulted with the filter's forced/default
components, answers yes. -/
def triggeredB (filter : Filter) (changes : ChangedFilesProvider) (branch : String)
    (p : Presubmit) : Bool :=
  (filter p).1 &&
    (match p.shouldRun branch changes (filter p).2.1 (filter p).2.2 with
     | Except.ok true => true
     | _ => false)

/-- `sets.String.Insert`, membership-only model. -/
def insertStr (s : List String) (x : String) : List String :=
  if s.contains x then s else x :: s

/-- The loop body partitioning `runWithTrigger` into the optional and
required trigger-command sets of `AvailablePresubmits`. -/
def triggerCommandsStep (acc : List String × List String) (ps : Presubmit) :
    List String × List String :=
  if ps.optional then (insertStr acc.1 ps.rerunCommand, acc.2)
  else (acc.1, insertStr acc.2 ps.rerunCommand)

/-- `AvailablePresubmits` returns
(run-with-test-all names, optional trigger commands, required trigger
commands, error); on error the three sets built so far (empty) are
returned alongside it. `org` and `repo` are accepted but, as in the
source, unused. -/
def AvailablePresubmits (changes : ChangedFilesProvider) (org repo branch : String)
    (presubmits : List Presubmit) :
    List String × List String × List String × Option String :=
  match FilterPresubmits TestAllFilter changes branch presubmits with
  | Except.error e => ([], [], [], some e)
  | Except.ok runWithTestAll =>
    match FilterPresubmits
        (AggregateFilter (presubmits.map (fun ps => CommandFilter ps.rerunCommand)))
        changes branch presubmits with
    | Except.error e => ([], [], [], some e)
    | Except.ok runWithTrigger =>
      let runWithTestAllNames := runWithTestAll.foldl (fun s ps => insertStr s ps.name) []
      let pair := runWithTrigger.foldl triggerCommandsStep ([], [])
      (runWithTestAllNames, pair.1, pair.2, none)

/-- The body of `PresubmitFilter`, instrumented with the number of
`contextGetter` invocations performed; the getter takes the invocation
index so that successive calls may observably differ. Mirrors the Go
sequence: always `CommandFilter`; on `RetestRe` match fetch contexts and
append `RetestFilter` (aborting on getter error); on `RetestRequiredRe`
match fetch contexts again and append `RetestRequiredFilter`; finally
append `TestAllFilter` when ok-to-test is honored and matches, or
`TestAllRe` matches. -/
def presubmitFilterInstr (honorOkToTest : Bool)
    (cg : Nat → Except String (List String × List String)) (body : String) :
    Except String Filter × Nat :=
  let filters0 : List Filter := [CommandFilter body]
  match (if matchesRetest body then
          match cg 0 with
          | Except.error e => (Except.error e, 1)
          | Except.ok (fc, ac) => (Except.ok (filters0 ++ [RetestFilter fc ac]), 1)
        else (Except.ok filters0, 0) :
        Except String (List Filter) × Nat) with
  | (Except.error e, n) => (Except.error e, n)
  | (Except.ok filters1, n) =>
    match (if matchesRetestRequired body then
            match cg n with
            | Except.error e => (Except.error e, n + 1)
            | Except.ok (fc, ac) =>
              (Except.ok (filters1 ++ [RetestRequiredFilter fc ac]), n + 1)
          else (Except.ok filters1, n) :
          Except String (List Filter) × Nat) with
    | (Except.error e, n2) => (Except.error e, n2)
    | (Except.ok filters2, n2) =>
      let filters3 :=
        if (honorOkToTest && matchesOkToTest body) || matchesTestAll body
        then filters2 ++ [TestAllFilter] else filters2
      (Except.ok (AggregateFilter filters3), n2)

/-- `PresubmitFilter` creates a filter for presubmits. -/
def PresubmitFilter (honorOkToTest : Bool)
    (cg : Nat → Except String (List String × List String)) (body : String) :
    Except String Filter :=
  (presubmitFilterInstr honorOkToTest cg body).1

/-- The ordered filter chain the specification describes for
`PresubmitFilter`, written from the spec's words: command filter first,
then retest, retest-required and test-all filters, each present exactly
when its pattern condition holds. -/
def presubmitChainSpec (honorOkToTest : Bool) (failedContexts allContexts : List String)
    (body : String) : List Filter :=
  [CommandFilter body]
  ++ (if matchesRetest body then [RetestFilter failedContexts allContexts] else [])
  ++ (if matchesRetestRequired body then [RetestRequiredFilter failedContexts allContexts] else [])
  ++ (if (honorOkToTest && matchesOkToTest body) || matchesTestAll body
      then [TestAllFilter] else [])

/-! Concrete fixtures used by witnesses and counterexamples. -/

/-- A changed-files provider that reports no changed files. -/
def chg0 : ChangedFilesProvider := fun _ => Except.ok []

/-- A presubmit whose trigger matches nothing and whose oracle answers yes. -/
def p0 : Presubmit :=
  { name := "p0", context := "ci/p0", rerunCommand := "/test p0", optional := false,
    needsExplicitTrigger := false, triggerMatches := fun _ => false,
    shouldRun := fun _ _ _ _ => Except.ok true }

/-- A presubmit whose trigger matches everything and whose oracle answers yes. -/
def pT : Presubmit :=
  { name := "pt", context := "ci/pt", rerunCommand := "/test pt", optional := false,
    needsExplicitTrigger := false, triggerMatches := fun _ => true,
    shouldRun := fun _ _ _ _ => Except.ok true }

/-- A presubmit whose trigger matches everything and whose oracle fails. -/
def pErr : Presubmit :=
  { name := "perr", context := "ci/perr", rerunCommand := "/test perr", optional := false,
    needsExplicitTrigger := false, triggerMatches := fun _ => true,
    shouldRun := fun _ _ _ _ => Except.error "boom" }

/-- A presubmit eligible for automatic running whose oracle answers yes. -/
def pA : Presubmit :=
  { name := "a", context := "ci/a", rerunCommand := "/test a", optional := false,
    needsExplicitTrigger := false, triggerMatches := fun _ => false,
    shouldRun := fun _ _ _ _ => Except.ok true }

/-- A presubmit requiring an explicit trigger (not matched by `TestAllFilter`). -/
def pB : Presubmit :=
  { name := "b", context := "ci/b", rerunCommand := "/test b", optional := false,
    needsExplicitTrigger := true, triggerMatches := fun _ => false,
    shouldRun := fun _ _ _ _ => Except.ok true }

/-- A presubmit eligible for automatic running whose oracle answers no. -/
def pC : Presubmit :=
  { name := "c", context := "ci/c", rerunCommand := "/test c", optional := false,
    needsExplicitTrigger := false, triggerMatches := fun _ => false,
    shouldRun := fun _ _ _ _ => Except.ok false }

/-- An optional presubmit sharing the rerun command of `dupReq`. -/
def dupOpt : Presubmit :=
  { name := "flakydup", context := "ci/flakydup", rerunCommand := "/test dup", optional := true,
    needsExplicitTrigger := true, triggerMatches := fun s => s == "/test dup",
    shouldRun := fun _ _ _ _ => Except.ok true }

/-- A required presubmit sharing the rerun command of `dupOpt`. -/
def dupReq : Presubmit :=
  { name := "coredup", context := "ci/coredup", rerunCommand := "/test dup", optional := false,
    needsExplicitTrigger := true, triggerMatches := fun s => s == "/test dup",
    shouldRun := fun _ _ _ _ => Except.ok true }

/-- Scenario C: the optional presubmit with rerun command `/test flaky`. -/
def flakyPs : Presubmit :=
  { name := "flaky", context := "ci/flaky", rerunCommand := "/test flaky", optional := true,
    needsExplicitTrigger := false, triggerMatches := fun s => s == "/test flaky",
    shouldRun := fun _ _ _ _ => Except.ok true }

/-- Scenario C: the required presubmit with rerun command `/test core`. -/
def corePs : Presubmit :=
  { name := "core", context := "ci/core", rerunCommand := "/test core", optional := false,
    needsExplicitTrigger := false, triggerMatches := fun s => s == "/test core",
    shouldRun := fun _ _ _ _ => Except.ok true }

/-! Theorems. -/

/-- C1: `AggregateFilter` evaluates the filters in the supplied order and
returns the 3-tuple of the first filter whose matches component is true,
short-circuiting; `(false, false, false)` when none matches (in
particular on the empty list); and reordering two individually matching
filters can change the resulting tuple. -/
theorem aggregateFilter_first_match :
    (∀ (filters : List Filter) (p : Presubmit),
      AggregateFilter filters p =
        (((filters.find? (fun f => (f p).1)).map (fun f => f p)).getD (false, false, false)))
    ∧ ∃ f g : Filter, (f p0).1 = true ∧ (g p0).1 = true ∧
        AggregateFilter [f, g] p0 ≠ AggregateFilter [g, f] p0 := by
  constructor
  · intro filters p
    induction filters with
    | nil => rfl
    | cons f fs ih =>
      rw [List.find?_cons]
      by_cases h : (f p).1 = true
      · simp [AggregateFilter, aggregateLoop, h]
      · simp only [Bool.not_eq_true] at h
        simpa [AggregateFilter, aggregateLoop, h] using ih
  · exact ⟨fun _ => (true, true, true), fun _ => (true, false, false), rfl, rfl, by decide⟩

/-- C2: `RetestFilter failed all` matches `p` iff its context is in
`failed`, or `p` needs no explicit trigger and its context is absent
from `all`; its forced component is always false and its default
component is exactly "the context had failed".  `RetestRequiredFilter`
returns `(false, false, false)` on every optional presubmit and agrees
with `RetestFilter` on every non-optional one. -/
theorem retestFilter_spec (failedContexts allContexts : List String) (p : Presubmit) :
    ((RetestFilter failedContexts allContexts p).1 = true ↔
      (p.context ∈ failedContexts ∨
        (p.needsExplicitTrigger = false ∧ p.context ∉ allContexts)))
    ∧ (RetestFilter failedContexts allContexts p).2.1 = false
    ∧ ((RetestFilter failedContexts allContexts p).2.2 = true ↔ p.context ∈ failedContexts)
    ∧ RetestRequiredFilter failedContexts allContexts p =
        (if p.optional then (false, false, false)
         else RetestFilter failedContexts allContexts p) := by
  refine ⟨?_, rfl, ?_, rfl⟩
  · simp [RetestFilter, List.contains, List.elem_iff]
  · simp [RetestFilter, List.contains, List.elem_iff]

/-- C2 witness: on a concrete failed context the retest filter matches
with default true, and the required variant rejects a concrete optional
presubmit. -/
theorem retestFilter_spec_witness :
    (RetestFilter ["ci/p0"] [] p0).1 = true ∧
      (RetestFilter ["ci/p0"] [] p0).2.2 = true ∧
      RetestRequiredFilter ["ci/flakydup"] [] dupOpt = (false, false, false) := by
  have h := retestFilter_spec ["ci/p0"] [] p0
  have h2 := retestFilter_spec ["ci/flakydup"] [] dupOpt
  refine ⟨h.1.mpr (Or.inl (by simp [p0])), (h.2.2.1.mpr (by simp [p0])), ?_⟩
  have := h2.2.2.2
  simpa [dupOpt] using this

/-- C3, counterexample: on a presubmit whose trigger does not match,
`CommandFilter` does not return `(false, false, false)` as claimed: the
defaultBehavior component stays true. -/
theorem commandFilter_nonmatch_counterexample :
    (CommandFilter "/test foo" p0).1 = false ∧
      CommandFilter "/test foo" p0 ≠ (false, false, false) := by
  exact ⟨rfl, by decide⟩

/-- C3, amended: `CommandFilter c p` yields `(true, true, true)` when the
trigger matches and `(false, false, true)` (not `(false, false, false)`)
when it does not. -/
theorem commandFilter_match_or_not (c : String) (p : Presubmit) :
    CommandFilter c p =
      if p.triggerMatches c then (true, true, true) else (false, false, true) := by
  cases h : p.triggerMatches c <;> simp [CommandFilter, h]

/-- C3 witness: the amended statement evaluated on concrete presubmits. -/
theorem commandFilter_match_or_not_witness :
    CommandFilter "/test foo" p0 = (false, false, true) ∧
      CommandFilter "/test foo" pT = (true, true, true) := by
  exact ⟨(commandFilter_match_or_not "/test foo" p0).trans (by decide),
    (commandFilter_match_or_not "/test foo" pT).trans (by decide)⟩

/-- C10: the forced component of `CommandFilter` always equals its
matches component (both are `p.triggerMatches body`) and the
defaultBehavior component is always true, so a non-matching presubmit
receives `(false, false, true)`. -/
theorem commandFilter_components (body : String) (p : Presubmit) :
    CommandFilter body p = (p.triggerMatches body, p.triggerMatches body, true) ∧
      (CommandFilter body p).2.1 = (CommandFilter body p).1 ∧
      (CommandFilter body p).2.2 = true :=
  ⟨rfl, rfl, rfl⟩

/-- C10 witness: the component laws evaluated on a concrete presubmit. -/
theorem commandFilter_components_witness :
    CommandFilter "x" p0 = (p0.triggerMatches "x", p0.triggerMatches "x", true) :=
  (commandFilter_components "x" p0).1

/-- On a successful scan, the triggered list is the input filtered by
`triggeredB` and the counters partition the input length. -/
theorem filterScan_ok_spec (filter : Filter) (changes : ChangedFilesProvider) (branch : String) :
    ∀ (ps ts : List Presubmit) (ns : List String) (nm snr : Nat),
      filterScan filter changes branch ps = Except.ok (ts, ns, nm, snr) →
      ts = ps.filter (triggeredB filter changes branch) ∧
        nm + snr + ts.length = ps.length := by
  intro ps
  induction ps with
  | nil =>
    intro ts ns nm snr h
    simp only [filterScan, Except.ok.injEq, Prod.mk.injEq] at h
    obtain ⟨hts, _, hnm, hsnr⟩ := h
    subst hts; subst hnm; subst hsnr
    simp
  | cons p rest ih =>
    intro ts ns nm snr h
    simp only [filterScan] at h
    by_cases hm : (filter p).1 = true
    · rw [if_pos hm] at h
      cases hs : p.shouldRun branch changes (filter p).2.1 (filter p).2.2 with
      | error e => rw [hs] at h; exact absurd h (by simp)
      | ok b =>
        rw [hs] at h
        cases b
        · cases hr : filterScan filter changes branch rest with
          | error e => rw [hr] at h; exact absurd h (by simp)
          | ok q =>
            obtain ⟨ts2, ns2, nm2, snr2⟩ := q
            rw [hr] at h
            simp only [Except.ok.injEq, Prod.mk.injEq] at h
            obtain ⟨hts, _, hnm, hsnr⟩ := h
            obtain ⟨hfil, hlen⟩ := ih ts2 ns2 nm2 snr2 hr
            subst hts; subst hnm; subst hsnr
            refine ⟨?_, ?_⟩
            · simp [List.filter_cons, triggeredB, hm, hs, hfil]
            · simp only [List.length_cons]; omega
        · cases hr : filterScan filter changes branch rest with
          | error e => rw [hr] at h; exact absurd h (by simp)
          | ok q =>
            obtain ⟨ts2, ns2, nm2, snr2⟩ := q
            rw [hr] at h
            simp only [Except.ok.injEq, Prod.mk.injEq] at h
            obtain ⟨hts, _, hnm, hsnr⟩ := h
            obtain ⟨hfil, hlen⟩ := ih ts2 ns2 nm2 snr2 hr
            subst hnm; subst hsnr
            refine ⟨?_, ?_⟩
            · rw [← hts, hfil]
              simp [List.filter_cons, triggeredB, hm, hs]
            · rw [← hts]
              simp only [List.length_cons]; omega
    · rw [if_neg hm] at h
      simp only [Bool.not_eq_true] at hm
      cases hr : filterScan filter changes branch rest with
      | error e => rw [hr] at h; exact absurd h (by simp)
      | ok q =>
        obtain ⟨ts2, ns2, nm2, snr2⟩ := q
        rw [hr] at h
        simp only [Except.ok.injEq, Prod.mk.injEq] at h
        obtain ⟨hts, _, hnm, hsnr⟩ := h
        obtain ⟨hfil, hlen⟩ := ih ts2 ns2 nm2 snr2 hr
        subst hts; subst hnm; subst hsnr
        refine ⟨?_, ?_⟩
        · simp [List.filter_cons, triggeredB, hm, hfil]
        · simp only [List.length_cons]; omega

/-- The scan aborts with the wrapped oracle error of the first matched
presubmit whose oracle fails. -/
theorem filterScan_error_at (filter : Filter) (changes : ChangedFilesProvider) (branch : String)
    (p : Presubmit) (e : String)
    (hm : (filter p).1 = true)
    (he : p.shouldRun branch changes (filter p).2.1 (filter p).2.2 = Except.error e) :
    ∀ pre : List Presubmit,
      (∀ q ∈ pre, (filter q).1 = true →
        ∀ e2, q.shouldRun branch changes (filter q).2.1 (filter q).2.2 ≠ Except.error e2) →
      ∀ post, filterScan filter changes branch (pre ++ p :: post) =
        Except.error (p.name ++ ": should run: " ++ e) := by
  intro pre
  induction pre with
  | nil =>
    intro _ post
    simp only [List.nil_append, filterScan, hm, if_true, he]
  | cons q pre2 ih =>
    intro hpre post
    have hq := hpre q (List.mem_cons_self q pre2)
    have hrec := ih (fun r hr => hpre r (List.mem_cons_of_mem q hr)) post
    simp only [List.cons_append, filterScan]
    by_cases hqm : (filter q).1 = true
    · rw [if_pos hqm]
      cases hs : q.shouldRun branch changes (filter q).2.1 (filter q).2.2 with
      | error e2 => exact absurd hs (hq hqm e2)
      | ok b => cases b <;> simp only [List.append_eq, hrec]
    · rw [if_neg hqm]
      simp only [List.append_eq, hrec]

/-- On success, `FilterPresubmits` returns exactly the input filtered by
`triggeredB`. -/
theorem filterPresubmits_ok_eq (filter : Filter) (changes : ChangedFilesProvider)
    (branch : String) (ps l : List Presubmit)
    (h : FilterPresubmits filter changes branch ps = Except.ok l) :
    l = ps.filter (triggeredB filter changes branch) := by
  unfold FilterPresubmits at h
  cases hr : filterScan filter changes branch ps with
  | error e => rw [hr] at h; exact absurd h (by simp)
  | ok q =>
    obtain ⟨ts, ns, nm, snr⟩ := q
    rw [hr] at h
    simp only [Except.ok.injEq] at h
    subst h
    exact (filterScan_ok_spec filter changes branch ps ts ns nm snr hr).1

/-- C5: if the eligibility oracle fails on the first matched presubmit it
is consulted for, `FilterPresubmits` returns the oracle error wrapped
with that presubmit's name, and no partial result list. -/
theorem filterPresubmits_error_propagation (filter : Filter) (changes : ChangedFilesProvider)
    (branch : String) (pre post : List Presubmit) (p : Presubmit) (e : String)
    (hpre : ∀ q ∈ pre, (filter q).1 = true →
      ∀ e2, q.shouldRun branch changes (filter q).2.1 (filter q).2.2 ≠ Except.error e2)
    (hm : (filter p).1 = true)
    (he : p.shouldRun branch changes (filter p).2.1 (filter p).2.2 = Except.error e) :
    FilterPresubmits filter changes branch (pre ++ p :: post) =
      Except.error (p.name ++ ": should run: " ++ e) := by
  unfold FilterPresubmits
  rw [filterScan_error_at filter changes branch p e hm he pre hpre post]

/-- C5 witness: a concrete failing oracle aborts the evaluation with the
annotated error. -/
theorem filterPresubmits_error_propagation_witness :
    FilterPresubmits (CommandFilter "x") chg0 "main" [pErr] =
      Except.error "perr: should run: boom" := by
  exact filterPresubmits_error_propagation (CommandFilter "x") chg0 "main" [] [] pErr "boom"
    (fun q hq => absurd hq (List.not_mem_nil q)) rfl rfl

/-- C6: on success the triggered list is the input list filtered by
"matched and oracle answered yes", hence a stable subsequence of the
input, and the no-match, should-not-run and triggered counts partition
the input count. -/
theorem filterPresubmits_success_partition (filter : Filter) (changes : ChangedFilesProvider)
    (branch : String) (ps ts : List Presubmit) (ns : List String) (nm snr : Nat)
    (h : filterScan filter changes branch ps = Except.ok (ts, ns, nm, snr)) :
    ts = ps.filter (triggeredB filter changes branch) ∧
      ts.Sublist ps ∧
      nm + snr + ts.length = ps.length ∧
      FilterPresubmits filter changes branch ps = Except.ok ts := by
  obtain ⟨hfil, hlen⟩ := filterScan_ok_spec filter changes branch ps ts ns nm snr h
  refine ⟨hfil, ?_, hlen, ?_⟩
  · rw [hfil]; exact List.filter_sublist ps
  · unfold FilterPresubmits; rw [h]

/-- C6 witness: a concrete three-presubmit run with one triggered job,
one no-match and one should-not-run. -/
theorem filterPresubmits_success_partition_witness :
    [pA] = [pA, pB, pC].filter (triggeredB TestAllFilter chg0 "main") ∧
      ([pA] : List Presubmit).Sublist [pA, pB, pC] ∧
      1 + 1 + 1 = 3 ∧
      FilterPresubmits TestAllFilter chg0 "main" [pA, pB, pC] = Except.ok [pA] := by
  exact filterPresubmits_success_partition TestAllFilter chg0 "main"
    [pA, pB, pC] [pA] ["a"] 1 1 rfl

/-- C9: evaluation is deterministic (two runs on identical inputs agree)
and mutation-free: every presubmit in the result is an element of the
input list, unchanged, in input order. -/
theorem filterPresubmits_deterministic (filter : Filter) (changes : ChangedFilesProvider)
    (branch : String) (ps : List Presubmit) :
    FilterPresubmits filter changes branch ps = FilterPresubmits filter changes branch ps ∧
      (match FilterPresubmits filter changes branch ps with
       | Except.ok l => l.Sublist ps
       | Except.error _ => True) := by
  refine ⟨rfl, ?_⟩
  cases h : FilterPresubmits filter changes branch ps with
  | error e => trivial
  | ok l =>
    show l.Sublist ps
    rw [filterPresubmits_ok_eq filter changes branch ps l h]
    exact List.filter_sublist ps

/-- C9 witness: determinism and the no-mutation consequence on a
concrete run. -/
theorem filterPresubmits_deterministic_witness :
    FilterPresubmits TestAllFilter chg0 "m" [pA] =
      FilterPresubmits TestAllFilter chg0 "m" [pA] :=
  (filterPresubmits_deterministic TestAllFilter chg0 "m" [pA]).1

/-- C4: `PresubmitFilter` aggregates exactly the ordered chain
`CommandFilter`, then `RetestFilter` iff a body line matches the retest
pattern, then `RetestRequiredFilter` iff one matches the
retest-required pattern, then `TestAllFilter` iff ok-to-test is honored
and matched or the test-all pattern matches; and a presubmit whose own
trigger matches the body receives `CommandFilter`'s tuple. -/
theorem presubmitFilter_chain (honorOkToTest : Bool)
    (cg : Nat → Except String (List String × List String)) (body : String)
    (failedContexts allContexts : List String)
    (h : ∀ n, cg n = Except.ok (failedContexts, allContexts)) :
    PresubmitFilter honorOkToTest cg body =
      Except.ok (AggregateFilter (presubmitChainSpec honorOkToTest failedContexts allContexts body))
    ∧ ∀ p : Presubmit, p.triggerMatches body = true →
        AggregateFilter (presubmitChainSpec honorOkToTest failedContexts allContexts body) p =
          (true, true, true) := by
  constructor
  · simp only [PresubmitFilter, presubmitFilterInstr, presubmitChainSpec]
    by_cases hr : matchesRetest body = true <;>
      by_cases hrr : matchesRetestRequired body = true <;>
        by_cases ht : ((honorOkToTest && matchesOkToTest body) || matchesTestAll body) = true <;>
          simp [hr, hrr, ht, h 0, h 1]
  · intro p hp
    simp [presubmitChainSpec, AggregateFilter, aggregateLoop, CommandFilter, hp]

/-- C4 witness: the chain law evaluated on the body `/retest` with a
concrete successful context getter, and the command-first law on a
concrete matching presubmit. -/
theorem presubmitFilter_chain_witness :
    PresubmitFilter false (fun _ => Except.ok (["cf"], ["ca"])) "/retest" =
      Except.ok (AggregateFilter (presubmitChainSpec false ["cf"] ["ca"] "/retest")) ∧
      AggregateFilter (presubmitChainSpec false ["cf"] ["ca"] "/retest") pT =
        (true, true, true) := by
  have h := presubmitFilter_chain false (fun _ => Except.ok (["cf"], ["ca"])) "/retest"
    ["cf"] ["ca"] (fun _ => rfl)
  exact ⟨h.1, h.2 pT rfl⟩

/-- C8, counterexample: on a body containing both `/retest` and
`/retest-required` lines, the filter builder invokes the context getter
twice, not once, while appending both retest filters. -/
theorem contextGetter_called_twice_counterexample :
    matchesRetest "/retest\n/retest-required" = true ∧
      matchesRetestRequired "/retest\n/retest-required" = true ∧
      (presubmitFilterInstr false (fun _ => Except.ok (["f"], ["a"]))
        "/retest\n/retest-required").2 = 2 ∧
      (presubmitFilterInstr false (fun _ => Except.ok (["f"], ["a"]))
        "/retest\n/retest-required").1 =
        Except.ok (AggregateFilter [CommandFilter "/retest\n/retest-required",
          RetestFilter ["f"] ["a"], RetestRequiredFilter ["f"] ["a"]]) :=
  ⟨rfl, rfl, rfl, rfl⟩

/-- C8, amended: the context getter is invoked only when a retest-family
pattern matches the body — never when neither matches, for any getter —
and, when it succeeds, exactly once per matching pattern: once for
`/retest`, once for `/retest-required`, hence twice (not once) when both
match. -/
theorem contextGetter_lazy_calls (honorOkToTest : Bool)
    (cg : Nat → Except String (List String × List String)) (body : String)
    (failedContexts allContexts : List String)
    (h : ∀ n, cg n = Except.ok (failedContexts, allContexts)) :
    (presubmitFilterInstr honorOkToTest cg body).2 =
      (if matchesRetest body then 1 else 0) + (if matchesRetestRequired body then 1 else 0)
    ∧ ∀ cg2 : Nat → Except String (List String × List String),
        matchesRetest body = false → matchesRetestRequired body = false →
        (presubmitFilterInstr honorOkToTest cg2 body).2 = 0 := by
  constructor
  · simp only [presubmitFilterInstr]
    by_cases hr : matchesRetest body = true <;>
      by_cases hrr : matchesRetestRequired body = true <;>
        simp [hr, hrr, h 0, h 1]
  · intro cg2 hr hrr
    simp [presubmitFilterInstr, hr, hrr]

/-- C8 witness: on a body matching no retest-family pattern the getter
is not consulted, whether it would succeed or fail. -/
theorem contextGetter_lazy_calls_witness :
    (presubmitFilterInstr true (fun _ => Except.ok ([], [])) "hello").2 = 0 ∧
      (presubmitFilterInstr true (fun _ => Except.error "down") "hello").2 = 0 := by
  have h := contextGetter_lazy_calls true (fun _ => Except.ok ([], [])) "hello" [] []
    (fun _ => rfl)
  exact ⟨h.1.trans (by decide), h.2 (fun _ => Except.error "down") rfl rfl⟩

/-- Membership in the string-set insertion. -/
theorem mem_insertStr (s : List String) (x y : String) :
    y ∈ insertStr s x ↔ y = x ∨ y ∈ s := by
  unfold insertStr
  by_cases h : s.contains x = true
  · rw [if_pos h]
    constructor
    · exact Or.inr
    · intro h2
      cases h2 with
      | inl he => subst he; exact List.elem_iff.mp h
      | inr hm => exact hm
  · rw [if_neg h]
    simp [List.mem_cons]

/-- Membership in the two command sets accumulated by
`triggerCommandsStep`: a command is in the optional (resp. required) set
iff it was in the accumulator or some optional (resp. required)
presubmit of the list carries it. -/
theorem triggerCommands_fold_mem (y : String) :
    ∀ (l : List Presubmit) (acc : List String × List String),
      ((y ∈ (l.foldl triggerCommandsStep acc).1 ↔
        y ∈ acc.1 ∨ ∃ p, p ∈ l ∧ p.optional = true ∧ y = p.rerunCommand)
      ∧ (y ∈ (l.foldl triggerCommandsStep acc).2 ↔
        y ∈ acc.2 ∨ ∃ p, p ∈ l ∧ p.optional = false ∧ y = p.rerunCommand)) := by
  intro l
  induction l with
  | nil => intro acc; simp
  | cons p l ih =>
    intro acc
    rw [List.foldl_cons]
    obtain ⟨ih1, ih2⟩ := ih (triggerCommandsStep acc p)
    by_cases hp : p.optional = true
    · constructor
      · rw [ih1]
        simp only [triggerCommandsStep, hp, if_true, mem_insertStr, List.mem_cons]
        constructor
        · rintro (⟨he | hacc⟩ | ⟨q, hq, hqo, hqc⟩)
          · exact Or.inr ⟨p, Or.inl rfl, hp, he⟩
          · exact Or.inl hacc
          · exact Or.inr ⟨q, Or.inr hq, hqo, hqc⟩
        · rintro (hacc | ⟨q, hq | hq, hqo, hqc⟩)
          · exact Or.inl (Or.inr hacc)
          · exact Or.inl (Or.inl (hq ▸ hqc))
          · exact Or.inr ⟨q, hq, hqo, hqc⟩
      · rw [ih2]
        simp only [triggerCommandsStep, hp, if_true, List.mem_cons]
        constructor
        · rintro (hacc | ⟨q, hq, hqo, hqc⟩)
          · exact Or.inl hacc
          · exact Or.inr ⟨q, Or.inr hq, hqo, hqc⟩
        · rintro (hacc | ⟨q, hq | hq, hqo, hqc⟩)
          · exact Or.inl hacc
          · rw [hq] at hqo; rw [hp] at hqo; exact absurd hqo (by simp)
          · exact Or.inr ⟨q, hq, hqo, hqc⟩
    · simp only [Bool.not_eq_true] at hp
      constructor
      · rw [ih1]
        simp only [triggerCommandsStep, hp, if_false, Bool.false_eq_true, List.mem_cons]
        constructor
        · rintro (hacc | ⟨q, hq, hqo, hqc⟩)
          · exact Or.inl hacc
          · exact Or.inr ⟨q, Or.inr hq, hqo, hqc⟩
        · rintro (hacc | ⟨q, hq | hq, hqo, hqc⟩)
          · exact Or.inl hacc
          · rw [hq] at hqo; rw [hp] at hqo; exact absurd hqo (by simp)
          · exact Or.inr ⟨q, hq, hqo, hqc⟩
      · rw [ih2]
        simp only [triggerCommandsStep, hp, if_false, Bool.false_eq_true, mem_insertStr,
          List.mem_cons]
        constructor
        · rintro (⟨he | hacc⟩ | ⟨q, hq, hqo, hqc⟩)
          · exact Or.inr ⟨p, Or.inl rfl, hp, he⟩
          · exact Or.inl hacc
          · exact Or.inr ⟨q, Or.inr hq, hqo, hqc⟩
        · rintro (hacc | ⟨q, hq | hq, hqo, hqc⟩)
          · exact Or.inl (Or.inr hacc)
          · exact Or.inl (Or.inl (hq ▸ hqc))
          · exact Or.inr ⟨q, hq, hqo, hqc⟩

/-- C7, counterexample: when an optional and a required presubmit share
one rerun command, that command appears in both the optional and the
required command sets of `AvailablePresubmits`. -/
theorem availablePresubmits_shared_command_counterexample :
    "/test dup" ∈ (AvailablePresubmits chg0 "org" "repo" "main" [dupOpt, dupReq]).2.1 ∧
      "/test dup" ∈ (AvailablePresubmits chg0 "org" "repo" "main" [dupOpt, dupReq]).2.2.1 := by
  decide

/-- C7, amended: provided no rerun command is shared between an optional
and a required presubmit of the input, the optional-commands and
required-commands sets returned by `AvailablePresubmits` are disjoint. -/
theorem availablePresubmits_disjoint (changes : ChangedFilesProvider)
    (org repo branch : String) (presubmits : List Presubmit)
    (hnodup : ∀ p ∈ presubmits, ∀ q ∈ presubmits,
      p.optional = true → q.optional = false → p.rerunCommand ≠ q.rerunCommand) :
    ∀ s, s ∈ (AvailablePresubmits changes org repo branch presubmits).2.1 →
      s ∉ (AvailablePresubmits changes org repo branch presubmits).2.2.1 := by
  intro s hopt hreq
  cases h1 : FilterPresubmits TestAllFilter changes branch presubmits with
  | error e => simp [AvailablePresubmits, h1] at hopt
  | ok runAll =>
    cases h2 : FilterPresubmits
        (AggregateFilter (presubmits.map fun ps => CommandFilter ps.rerunCommand))
        changes branch presubmits with
    | error e => simp [AvailablePresubmits, h1, h2] at hopt
    | ok runTrig =>
      simp only [AvailablePresubmits, h1, h2] at hopt hreq
      have hO := ((triggerCommands_fold_mem s runTrig ([], [])).1).mp hopt
      have hR := ((triggerCommands_fold_mem s runTrig ([], [])).2).mp hreq
      simp only [List.not_mem_nil, false_or] at hO hR
      obtain ⟨p, hpmem, hpopt, hpcmd⟩ := hO
      obtain ⟨q, hqmem, hqopt, hqcmd⟩ := hR
      have hsub := filterPresubmits_ok_eq _ changes branch presubmits runTrig h2
      rw [hsub] at hpmem hqmem
      exact hnodup p (List.mem_filter.mp hpmem).1 q (List.mem_filter.mp hqmem).1
        hpopt hqopt (hpcmd.symm.trans hqcmd)

/-- C7 witness: Scenario C — one optional presubmit with rerun command
`/test flaky` and one required with `/test core` yield disjoint
singleton sets. -/
theorem availablePresubmits_disjoint_witness :
    (AvailablePresubmits chg0 "org" "repo" "main" [flakyPs, corePs]).2.1 = ["/test flaky"] ∧
      (AvailablePresubmits chg0 "org" "repo" "main" [flakyPs, corePs]).2.2.1 = ["/test core"] ∧
      "/test flaky" ∉ (AvailablePresubmits chg0 "org" "repo" "main" [flakyPs, corePs]).2.2.1 := by
  refine ⟨by decide, by decide, ?_⟩
  exact availablePresubmits_disjoint chg0 "org" "repo" "main" [flakyPs, corePs]
    (by decide) "/test flaky" (by decide)

/-- C1 witness: the first-match law evaluated at the empty filter list. -/
theorem aggregateFilter_first_match_witness :
    AggregateFilter [] p0 = (false, false, false) :=
  aggregateFilter_first_match.1 [] p0

end Pjutil
